import Mathlib

/-!
Verification of `getTimeUsec` from Loftwing (`Sources/CLoftwing/src/time.c` and
its duplicate `Sources/CLoftwing/time.c`).

The function is compiled under exactly one platform branch chosen by a chain of
preprocessor conditionals.  We embed the chain shallowly:

* `PlatformConfig` records which platform macros are defined at build time.
* `Strategy` is the branch that ends up compiled in; `selectStrategy` mirrors the
  first-match semantics of the `#if`/`#elif` chain, with the final `#error`
  becoming `Except.error` carrying the diagnostic text.
* Calls into the OS are replaced by an oracle (`PlatformOracle`) holding the
  values the external primitives would return on this call.  A fallible
  primitive is an `Option` (`none` = the call reported failure).
* The Windows branch has a `static` frequency cache; `getTimeUsecWin` takes the
  cache value before the call and returns the result paired with the cache value
  after the call.  When `QueryPerformanceFrequency` fails it is modelled as
  leaving its out-parameter (the zero-initialised cache) unchanged.
* C's `/` and `%` on signed 64-bit integers truncate toward zero, so they are
  embedded as `Int.tdiv` and `Int.tmod`.  `emscripten_get_now` returns a
  `double` in the real code; the oracle abstracts the already-scaled reading to
  an integer (no claim exercises that branch's arithmetic).
-/

/-- Embeds `struct timespec`: seconds (`time_t`) and nanoseconds (`long`). -/
structure Timespec where
  tv_sec : Int
  tv_nsec : Int

/-- Result of a `ra_clock_gettime(CLOCK_MONOTONIC, &tv)` call: the returned
status and the value left in `tv` (the code checks `status < 0` for failure). -/
structure ClockGettime where
  status : Int
  tv : Timespec

/-- Oracle for the two Windows primitives used by the `_WIN32` branch.
`none` models the primitive returning `FALSE`; `some v` models success with
`v` written to the out-parameter's `QuadPart`. -/
structure WinOracle where
  queryPerformanceFrequency : Option Int
  queryPerformanceCounter : Option Int

/-- Which platform macros are defined at build time, one flag per macro tested
by the preprocessor chain in `time.c`. -/
structure PlatformConfig where
  win32 : Bool
  psl1ght : Bool
  ps3 : Bool
  gekko : Bool
  wiiu : Bool
  switch : Bool
  haveLibnx : Bool
  threeDS : Bool
  posixMonotonicClock : Bool
  qnx : Bool
  android : Bool
  mach : Bool
  djgpp : Bool
  emscripten : Bool
  ps2 : Bool
  vita : Bool
  psp : Bool

/-- Oracle for every external primitive any branch of `getTimeUsec` may call,
plus the SDK-supplied conversion helpers and constants. -/
structure PlatformOracle where
  win : WinOracle
  sysGetSystemTime : Int
  sys_time_get_system_time : Int
  gettime : Int
  ticks_to_microsecs : Int → Int
  OSGetSystemTime : Int
  ticks_to_us : Int → Int
  svcGetSystemTick : Int
  osGetTime : Int
  ra_clock_gettime : ClockGettime
  emscripten_get_now : Int
  ps2_clock : Int
  PS2_CLOCKS_PER_MSEC : Int
  sceKernelGetSystemTimeWide : Int

/-- The platform branch of `getTimeUsec` that the preprocessor keeps. -/
inductive Strategy where
  | win32
  | psl1ght
  | ps3
  | gekko
  | wiiu
  | switchLibnx
  | threeDS
  | posixMonotonic
  | emscripten
  | ps2
  | vitaPsp

/-- Exact (unbounded) integer value of the Windows split conversion on
natural-number readings: `count / freq * 1000000 + count % freq * 1000000 / freq`. -/
def winConvertNat (count freq : Nat) : Nat :=
  count / freq * 1000000 + count % freq * 1000000 / freq

/-- The Windows split conversion as the machine computes it when every
intermediate wraps around modulo `2 ^ 64` (two's-complement bit pattern of the
64-bit `QuadPart` arithmetic), on natural-number readings.  `count` and `freq`
are assumed already in range, so only the two products and the final sum are
reduced. -/
def winConvertWrap (count freq : Nat) : Nat :=
  ((count / freq * 1000000) % 2 ^ 64 + ((count % freq * 1000000) % 2 ^ 64) / freq) % 2 ^ 64

namespace SrcTime

/-!  Embedding of `getTimeUsec` as defined in `Sources/CLoftwing/src/time.c`. -/

/-- Embeds the `_WIN32` return expression
`(count.QuadPart / freq.QuadPart * 1000000) + (count.QuadPart % freq.QuadPart * 1000000 / freq.QuadPart)`
with C's truncating division and remainder. -/
def winConvert (count freq : Int) : Int :=
  (count.tdiv freq) * 1000000 + ((count.tmod freq) * 1000000).tdiv freq

/-- Value of the static `freq` cache after the guard line
`if (!freq.QuadPart && !QueryPerformanceFrequency(&freq)) return 0;`:
the frequency query runs only when the cache is zero, and on failure the cache
keeps its previous (zero) value. -/
def winEffectiveFreq (freq : Int) (o : WinOracle) : Int :=
  if freq = 0 then o.queryPerformanceFrequency.getD freq else freq

/-- The `_WIN32` branch of `getTimeUsec`.  `freq` is the value of the static
cache entering the call; the second component is its value after the call. -/
def getTimeUsecWin (freq : Int) (o : WinOracle) : Int × Int :=
  let freq' := winEffectiveFreq freq o
  if freq = 0 ∧ o.queryPerformanceFrequency = none then (0, freq')
  else
    match o.queryPerformanceCounter with
    | none => (0, freq')
    | some count => (winConvert count freq', freq')

/-- The POSIX monotonic-clock branch of `getTimeUsec`:
`if (ra_clock_gettime(CLOCK_MONOTONIC, &tv) < 0) return 0;`
`return tv.tv_sec * INT64_C(1000000) + (tv.tv_nsec + 500) / 1000;`. -/
def getTimeUsecPosix (r : ClockGettime) : Int :=
  if r.status < 0 then 0
  else r.tv.tv_sec * 1000000 + (r.tv.tv_nsec + 500).tdiv 1000

/-- First-match semantics of the `#if`/`#elif` chain; the trailing `#else`
carries the `#error` diagnostic. -/
def selectStrategy (c : PlatformConfig) : Except String Strategy :=
  if c.win32 then .ok .win32
  else if c.psl1ght then .ok .psl1ght
  else if !c.psl1ght && c.ps3 then .ok .ps3
  else if c.gekko then .ok .gekko
  else if c.wiiu then .ok .wiiu
  else if c.switch || c.haveLibnx then .ok .switchLibnx
  else if c.threeDS then .ok .threeDS
  else if c.posixMonotonicClock || c.qnx || c.android || c.mach || c.djgpp then .ok .posixMonotonic
  else if c.emscripten then .ok .emscripten
  else if c.ps2 then .ok .ps2
  else if c.vita || c.psp then .ok .vitaPsp
  else .error "Your platform does not have a timer function implemented in cpu_features_get_time_usec(). Cannot continue."

/-- Body compiled in for a given surviving branch. -/
def runStrategy (s : Strategy) (o : PlatformOracle) (freq : Int) : Int × Int :=
  match s with
  | .win32 => getTimeUsecWin freq o.win
  | .psl1ght => (o.sysGetSystemTime, freq)
  | .ps3 => (o.sys_time_get_system_time, freq)
  | .gekko => (o.ticks_to_microsecs o.gettime, freq)
  | .wiiu => (o.ticks_to_us o.OSGetSystemTime, freq)
  | .switchLibnx => ((o.svcGetSystemTick * 10).tdiv 192, freq)
  | .threeDS => (o.osGetTime * 1000, freq)
  | .posixMonotonic => (getTimeUsecPosix o.ra_clock_gettime, freq)
  | .emscripten => (o.emscripten_get_now * 1000, freq)
  | .ps2 => ((o.ps2_clock.tdiv o.PS2_CLOCKS_PER_MSEC) * 1000, freq)
  | .vitaPsp => (o.sceKernelGetSystemTimeWide, freq)

/-- `getTimeUsec` for a build configuration `c`: `Except.error` is the
compile-time `#error`, otherwise the selected branch runs against the oracle. -/
def getTimeUsec (c : PlatformConfig) (o : PlatformOracle) (freq : Int) :
    Except String (Int × Int) :=
  match selectStrategy c with
  | .error e => .error e
  | .ok s => .ok (runStrategy s o freq)

/-- Cache value after a sequence of calls of the `_WIN32` branch, threading the
static `freq` cache through each call. -/
def runWinCalls (freq : Int) : List WinOracle → Int
  | [] => freq
  | o :: os => runWinCalls (getTimeUsecWin freq o).2 os

end SrcTime

namespace RootTime

/-!  Embedding of `getTimeUsec` as defined in `Sources/CLoftwing/time.c`
(the duplicate copy at the package root), translated independently. -/

/-- Windows split conversion of the duplicate copy. -/
def winConvert (count freq : Int) : Int :=
  (count.tdiv freq) * 1000000 + ((count.tmod freq) * 1000000).tdiv freq

/-- Frequency-cache value after the guard line of the duplicate copy. -/
def winEffectiveFreq (freq : Int) (o : WinOracle) : Int :=
  if freq = 0 then o.queryPerformanceFrequency.getD freq else freq

/-- The `_WIN32` branch of the duplicate copy. -/
def getTimeUsecWin (freq : Int) (o : WinOracle) : Int × Int :=
  let freq' := winEffectiveFreq freq o
  if freq = 0 ∧ o.queryPerformanceFrequency = none then (0, freq')
  else
    match o.queryPerformanceCounter with
    | none => (0, freq')
    | some count => (winConvert count freq', freq')

/-- The POSIX monotonic-clock branch of the duplicate copy. -/
def getTimeUsecPosix (r : ClockGettime) : Int :=
  if r.status < 0 then 0
  else r.tv.tv_sec * 1000000 + (r.tv.tv_nsec + 500).tdiv 1000

/-- Preprocessor chain of the duplicate copy. -/
def selectStrategy (c : PlatformConfig) : Except String Strategy :=
  if c.win32 then .ok .win32
  else if c.psl1ght then .ok .psl1ght
  else if !c.psl1ght && c.ps3 then .ok .ps3
  else if c.gekko then .ok .gekko
  else if c.wiiu then .ok .wiiu
  else if c.switch || c.haveLibnx then .ok .switchLibnx
  else if c.threeDS then .ok .threeDS
  else if c.posixMonotonicClock || c.qnx || c.android || c.mach || c.djgpp then .ok .posixMonotonic
  else if c.emscripten then .ok .emscripten
  else if c.ps2 then .ok .ps2
  else if c.vita || c.psp then .ok .vitaPsp
  else .error "Your platform does not have a timer function implemented in cpu_features_get_time_usec(). Cannot continue."

/-- Branch bodies of the duplicate copy. -/
def runStrategy (s : Strategy) (o : PlatformOracle) (freq : Int) : Int × Int :=
  match s with
  | .win32 => getTimeUsecWin freq o.win
  | .psl1ght => (o.sysGetSystemTime, freq)
  | .ps3 => (o.sys_time_get_system_time, freq)
  | .gekko => (o.ticks_to_microsecs o.gettime, freq)
  | .wiiu => (o.ticks_to_us o.OSGetSystemTime, freq)
  | .switchLibnx => ((o.svcGetSystemTick * 10).tdiv 192, freq)
  | .threeDS => (o.osGetTime * 1000, freq)
  | .posixMonotonic => (getTimeUsecPosix o.ra_clock_gettime, freq)
  | .emscripten => (o.emscripten_get_now * 1000, freq)
  | .ps2 => ((o.ps2_clock.tdiv o.PS2_CLOCKS_PER_MSEC) * 1000, freq)
  | .vitaPsp => (o.sceKernelGetSystemTimeWide, freq)

/-- `getTimeUsec` of the duplicate copy. -/
def getTimeUsec (c : PlatformConfig) (o : PlatformOracle) (freq : Int) :
    Except String (Int × Int) :=
  match selectStrategy c with
  | .error e => .error e
  | .ok s => .ok (runStrategy s o freq)

end RootTime

/-!  Helper lemmas shared by the claim theorems. -/

/-- The split conversion equals the naive scaled division, in exact natural
arithmetic. -/
theorem winConvertNat_split (c f : Nat) (hf : 0 < f) :
    winConvertNat c f = c * 1000000 / f := by
  conv_rhs => rw [← Nat.div_add_mod c f]
  rw [Nat.add_mul, Nat.mul_assoc, Nat.mul_add_div hf]
  rfl

/-- On natural-number readings the embedded C expression agrees with
`winConvertNat`. -/
theorem winConvert_ofNat (c f : Nat) :
    SrcTime.winConvert (c : Int) (f : Int) = ((winConvertNat c f : Nat) : Int) := by
  unfold SrcTime.winConvert winConvertNat
  rw [show ((c : Int).tdiv f) = ((c / f : Nat) : Int) from (Int.ofNat_tdiv c f).symm,
    show ((c : Int).tmod f) = ((c % f : Nat) : Int) from (Int.ofNat_tmod c f).symm,
    show ((c % f : Nat) : Int) * 1000000 = ((c % f * 1000000 : Nat) : Int) by push_cast; ring,
    show ((c % f * 1000000 : Nat) : Int).tdiv f = ((c % f * 1000000 / f : Nat) : Int) from
      (Int.ofNat_tdiv _ f).symm]
  push_cast
  ring

/-- On a successful reading the POSIX branch computes the formula in plain
natural arithmetic (C's truncating division agrees with floor division on
non-negative operands). -/
theorem getTimeUsecPosix_ok (st : Int) (hst : 0 ≤ st) (s n : Nat) :
    SrcTime.getTimeUsecPosix ⟨st, ⟨(s : Int), (n : Int)⟩⟩ =
      ((s * 1000000 + (n + 500) / 1000 : Nat) : Int) := by
  unfold SrcTime.getTimeUsecPosix
  dsimp only
  rw [if_neg (show ¬ (st : Int) < 0 by omega)]
  rw [show ((n : Int) + 500) = ((n + 500 : Nat) : Int) by push_cast; ring,
    show ((n + 500 : Nat) : Int).tdiv 1000 = (((n + 500) / 1000 : Nat) : Int) from
      (Int.ofNat_tdiv _ 1000).symm]
  push_cast
  ring

/-- The Windows conversion is monotone in the counter for a fixed positive
frequency. -/
theorem winConvert_mono (f c1 c2 : Int) (hf : 0 < f) (h0 : 0 ≤ c1) (h12 : c1 ≤ c2) :
    SrcTime.winConvert c1 f ≤ SrcTime.winConvert c2 f := by
  obtain ⟨a, rfl⟩ : ∃ a : Nat, c1 = (a : Int) := ⟨c1.toNat, (Int.toNat_of_nonneg h0).symm⟩
  obtain ⟨b, rfl⟩ : ∃ b : Nat, c2 = (b : Int) :=
    ⟨c2.toNat, (Int.toNat_of_nonneg (h0.trans h12)).symm⟩
  obtain ⟨g, rfl⟩ : ∃ g : Nat, f = (g : Int) := ⟨f.toNat, (Int.toNat_of_nonneg hf.le).symm⟩
  have hg : 0 < g := by exact_mod_cast hf
  have hab : a ≤ b := by exact_mod_cast h12
  rw [winConvert_ofNat, winConvert_ofNat, winConvertNat_split a g hg,
    winConvertNat_split b g hg]
  exact_mod_cast Nat.div_le_div_right (Nat.mul_le_mul_right _ hab)

/-- The POSIX conversion is monotone in the lexicographic order on valid
`(sec, nsec)` readings. -/
theorem posix_mono (s1 n1 s2 n2 : Nat) (h1 : n1 < 1000000000)
    (hlex : s1 < s2 ∨ (s1 = s2 ∧ n1 ≤ n2)) :
    SrcTime.getTimeUsecPosix ⟨0, ⟨(s1 : Int), (n1 : Int)⟩⟩ ≤
      SrcTime.getTimeUsecPosix ⟨0, ⟨(s2 : Int), (n2 : Int)⟩⟩ := by
  rw [getTimeUsecPosix_ok 0 le_rfl, getTimeUsecPosix_ok 0 le_rfl]
  have : s1 * 1000000 + (n1 + 500) / 1000 ≤ s2 * 1000000 + (n2 + 500) / 1000 := by
    rcases hlex with h | ⟨rfl, hn⟩
    · have hcap : (n1 + 500) / 1000 ≤ 1000000 :=
        le_trans (Nat.div_le_div_right (show n1 + 500 ≤ 1000000499 by omega)) (by norm_num)
      calc s1 * 1000000 + (n1 + 500) / 1000 ≤ s1 * 1000000 + 1000000 := by omega
        _ = (s1 + 1) * 1000000 := by ring
        _ ≤ s2 * 1000000 := Nat.mul_le_mul_right _ (by omega)
        _ ≤ s2 * 1000000 + (n2 + 500) / 1000 := Nat.le_add_right _ _
    · exact Nat.add_le_add_left (Nat.div_le_div_right (by omega)) _
  exact_mod_cast this

/-- A nonzero frequency cache passes through a call unchanged. -/
theorem getTimeUsecWin_snd (freq : Int) (h : freq ≠ 0) (o : WinOracle) :
    (SrcTime.getTimeUsecWin freq o).2 = freq := by
  cases hc : o.queryPerformanceCounter <;>
    simp [SrcTime.getTimeUsecWin, SrcTime.winEffectiveFreq, h, hc]

/-!  Claim theorems. -/

/-- C1: if a runtime query to the timer source fails — on the
performance-counter strategy the frequency query fails while the cache is
unset, or the counter read fails; on the POSIX strategy the monotonic clock
read returns a negative status — then `getTimeUsec` returns exactly zero and
no error is propagated. -/
theorem c1_failure_returns_zero :
    (∀ (o : WinOracle), o.queryPerformanceFrequency = none →
      (SrcTime.getTimeUsecWin 0 o).1 = 0) ∧
    (∀ (freq : Int) (o : WinOracle), o.queryPerformanceCounter = none →
      (SrcTime.getTimeUsecWin freq o).1 = 0) ∧
    (∀ (r : ClockGettime), r.status < 0 → SrcTime.getTimeUsecPosix r = 0) := by
  refine ⟨?_, ?_, ?_⟩
  · intro o h
    simp [SrcTime.getTimeUsecWin, h]
  · intro freq o h
    unfold SrcTime.getTimeUsecWin
    dsimp only
    split
    · rfl
    · rw [h]
  · intro r h
    simp [SrcTime.getTimeUsecPosix, h]

/-- Witness for C1 at concrete failing oracles. -/
theorem c1_failure_returns_zero_witness :
    (SrcTime.getTimeUsecWin 0 ⟨none, some 5⟩).1 = 0 ∧
    (SrcTime.getTimeUsecWin 7 ⟨some 3, none⟩).1 = 0 ∧
    SrcTime.getTimeUsecPosix ⟨-1, ⟨4, 5⟩⟩ = 0 :=
  ⟨c1_failure_returns_zero.1 ⟨none, some 5⟩ rfl,
   c1_failure_returns_zero.2.1 7 ⟨some 3, none⟩ rfl,
   c1_failure_returns_zero.2.2 ⟨-1, ⟨4, 5⟩⟩ (by decide)⟩

/-- C2: for every successful POSIX reading `(sec, nsec)` with `sec ≥ 0` and
`0 ≤ nsec < 1000000000`, the result is
`sec * 1000000 + (nsec + 500) / 1000` with floor (integer) division. -/
theorem c2_posix_conversion (st : Int) (sec nsec : Nat) (hst : 0 ≤ st)
    (hn : nsec < 1000000000) :
    SrcTime.getTimeUsecPosix ⟨st, ⟨(sec : Int), (nsec : Int)⟩⟩ =
      ((sec * 1000000 + (nsec + 500) / 1000 : Nat) : Int) :=
  getTimeUsecPosix_ok st hst sec nsec

/-- Witness for C2 at a concrete successful reading. -/
theorem c2_posix_conversion_witness :
    SrcTime.getTimeUsecPosix ⟨0, ⟨((2 : Nat) : Int), ((12345 : Nat) : Int)⟩⟩ =
      ((2 * 1000000 + (12345 + 500) / 1000 : Nat) : Int) :=
  c2_posix_conversion 0 2 12345 (by decide) (by decide)

/-- C3: for `count ≥ 0` and `freq > 0` the Windows strategy returns the split
expression `winConvert`, and in exact integer arithmetic the split equals the
naive `count * 1000000 / freq`. -/
theorem c3_win_split_eq_naive (count freq : Int) (hc : 0 ≤ count) (hf : 0 < freq) :
    (∀ q : Option Int,
      (SrcTime.getTimeUsecWin freq ⟨q, some count⟩).1 = SrcTime.winConvert count freq) ∧
    SrcTime.winConvert count freq = (count * 1000000).tdiv freq := by
  constructor
  · intro q
    simp [SrcTime.getTimeUsecWin, SrcTime.winEffectiveFreq, hf.ne']
  · obtain ⟨a, rfl⟩ : ∃ a : Nat, count = (a : Int) :=
      ⟨count.toNat, (Int.toNat_of_nonneg hc).symm⟩
    obtain ⟨g, rfl⟩ : ∃ g : Nat, freq = (g : Int) :=
      ⟨freq.toNat, (Int.toNat_of_nonneg hf.le).symm⟩
    have hg : 0 < g := by exact_mod_cast hf
    rw [winConvert_ofNat, winConvertNat_split a g hg,
      show ((a : Int) * 1000000) = ((a * 1000000 : Nat) : Int) by push_cast; ring,
      show ((a * 1000000 : Nat) : Int).tdiv g = ((a * 1000000 / g : Nat) : Int) from
        (Int.ofNat_tdiv _ g).symm]

/-- Witness for C3 at `count = 7`, `freq = 3`. -/
theorem c3_win_split_eq_naive_witness :
    (SrcTime.getTimeUsecWin 3 ⟨none, some 7⟩).1 = SrcTime.winConvert 7 3 ∧
    SrcTime.winConvert 7 3 = ((7 : Int) * 1000000).tdiv 3 :=
  ⟨(c3_win_split_eq_naive 7 3 (by decide) (by decide)).1 none,
   (c3_win_split_eq_naive 7 3 (by decide) (by decide)).2⟩

/-- C4 counterexample: inside the claimed ranges (`count < 2 ^ 63`,
`0 < freq < 2 ^ 63`) the split computation does overflow: at
`count = 2 ^ 62`, `freq = 1` the whole-unit product wraps to zero modulo
`2 ^ 64`, so the wrapped result differs from the exact one. -/
theorem c4_overflow_counterexample :
    (2 : Nat) ^ 62 < 2 ^ 63 ∧ (0 : Nat) < 1 ∧ (1 : Nat) < 2 ^ 63 ∧
    winConvertWrap (2 ^ 62) 1 ≠ winConvertNat (2 ^ 62) 1 := by decide

/-- C4 (amended): if additionally `freq ≤ 9223372036855` (so the remainder
product stays below `2 ^ 63`) and the exact result is below `2 ^ 63`, then no
intermediate of the split computation reaches `2 ^ 63` and the mod-`2 ^ 64`
(wrap-around) result equals the exact integer result. -/
theorem c4_no_overflow_in_bounds (count freq : Nat) (hc : count < 2 ^ 63)
    (hf : 0 < freq) (hfb : freq ≤ 9223372036855)
    (hres : winConvertNat count freq < 2 ^ 63) :
    count / freq * 1000000 < 2 ^ 63 ∧ count % freq * 1000000 < 2 ^ 63 ∧
      winConvertWrap count freq = winConvertNat count freq ∧
      SrcTime.winConvert (count : Int) (freq : Int) = ((winConvertNat count freq : Nat) : Int) := by
  have h2 : count % freq * 1000000 < 2 ^ 63 := by
    have hm : count % freq ≤ 9223372036854 := by
      have := Nat.mod_lt count hf
      omega
    calc count % freq * 1000000 ≤ 9223372036854 * 1000000 := Nat.mul_le_mul_right _ hm
      _ < 2 ^ 63 := by norm_num
  have h1 : count / freq * 1000000 < 2 ^ 63 :=
    lt_of_le_of_lt (Nat.le_add_right _ _) hres
  refine ⟨h1, h2, ?_, winConvert_ofNat count freq⟩
  unfold winConvertWrap winConvertNat
  rw [Nat.mod_eq_of_lt (lt_trans h1 (by norm_num)),
    Nat.mod_eq_of_lt (lt_trans h2 (by norm_num)),
    Nat.mod_eq_of_lt
      (show count / freq * 1000000 + count % freq * 1000000 / freq < 2 ^ 64 from
        lt_trans hres (by norm_num))]

/-- Witness for the amended C4 at `count = 7`, `freq = 3`. -/
theorem c4_no_overflow_in_bounds_witness :
    7 / 3 * 1000000 < 2 ^ 63 ∧ 7 % 3 * 1000000 < 2 ^ 63 ∧
      winConvertWrap 7 3 = winConvertNat 7 3 ∧
      SrcTime.winConvert ((7 : Nat) : Int) ((3 : Nat) : Int) = ((winConvertNat 7 3 : Nat) : Int) :=
  c4_no_overflow_in_bounds 7 3 (by decide) (by decide) (by decide) (by decide)

/-- C5 counterexample: the claim expects `1000999` at `(sec, nsec) = (1, 999500)`,
but the code's `+500` then `/1000` rule rounds `999.5` microseconds up, giving
`1001000`. -/
theorem c5_posix_values_counterexample :
    SrcTime.getTimeUsecPosix ⟨0, ⟨1, 999500⟩⟩ = 1001000 ∧ (1001000 : Int) ≠ 1000999 := by
  decide

/-- C5 (amended): `(sec, nsec) = (1, 999500)` yields `1001000` microseconds and
`(sec, nsec) = (0, 499)` yields `0` microseconds. -/
theorem c5_posix_values :
    SrcTime.getTimeUsecPosix ⟨0, ⟨1, 999500⟩⟩ = 1001000 ∧
    SrcTime.getTimeUsecPosix ⟨0, ⟨0, 499⟩⟩ = 0 := by
  decide

/-- C6: each conversion is monotone non-decreasing in its raw reading — the
Windows conversion in the counter for fixed positive frequency, the POSIX
conversion in the lexicographic order on valid `(sec, nsec)` readings — and
hence a non-decreasing sequence of raw counter readings yields non-decreasing
timestamps. -/
theorem c6_conversions_monotone :
    (∀ (f c1 c2 : Int), 0 < f → 0 ≤ c1 → c1 ≤ c2 →
      SrcTime.winConvert c1 f ≤ SrcTime.winConvert c2 f) ∧
    (∀ (s1 n1 s2 n2 : Nat), n1 < 1000000000 → n2 < 1000000000 →
      (s1 < s2 ∨ (s1 = s2 ∧ n1 ≤ n2)) →
      SrcTime.getTimeUsecPosix ⟨0, ⟨(s1 : Int), (n1 : Int)⟩⟩ ≤
        SrcTime.getTimeUsecPosix ⟨0, ⟨(s2 : Int), (n2 : Int)⟩⟩) ∧
    (∀ (f : Int) (reads : Nat → Int), 0 < f → (∀ i, 0 ≤ reads i) →
      (∀ i, reads i ≤ reads (i + 1)) →
      ∀ i j, i ≤ j → SrcTime.winConvert (reads i) f ≤ SrcTime.winConvert (reads j) f) := by
  refine ⟨winConvert_mono, ?_, ?_⟩
  · intro s1 n1 s2 n2 h1 _h2 hlex
    exact posix_mono s1 n1 s2 n2 h1 hlex
  · intro f reads hf h0 hstep i j hij
    have hr : reads i ≤ reads j := by
      induction hij with
      | refl => exact le_rfl
      | step _ ih => exact ih.trans (hstep _)
    exact winConvert_mono f (reads i) (reads j) hf (h0 i) hr

/-- Witness for C6 at concrete readings. -/
theorem c6_conversions_monotone_witness :
    SrcTime.winConvert 5 3 ≤ SrcTime.winConvert 11 3 ∧
    SrcTime.getTimeUsecPosix ⟨0, ⟨((1 : Nat) : Int), ((999999999 : Nat) : Int)⟩⟩ ≤
      SrcTime.getTimeUsecPosix ⟨0, ⟨((2 : Nat) : Int), ((0 : Nat) : Int)⟩⟩ ∧
    SrcTime.winConvert ((fun _ : Nat => (5 : Int)) 0) 3 ≤
      SrcTime.winConvert ((fun _ : Nat => (5 : Int)) 2) 3 :=
  ⟨c6_conversions_monotone.1 3 5 11 (by decide) (by decide) (by decide),
   c6_conversions_monotone.2.1 1 999999999 2 0 (by decide) (by decide) (Or.inl (by decide)),
   c6_conversions_monotone.2.2 3 (fun _ => 5) (by decide)
     (fun _ => (by decide : (0 : Int) ≤ 5)) (fun _ => le_rfl) 0 2 (by decide)⟩

/-- C7: the static frequency cache of the `_WIN32` branch is initialised at
most once — a nonzero cache makes the call independent of the frequency query
and leaves the cache unchanged; a failed query with an unset cache leaves it
unset (so the next call retries); and a nonzero cache value persists through
every subsequent sequence of calls. -/
theorem c7_freq_cache (freq : Int) (o : WinOracle) :
    (freq ≠ 0 →
      (∀ q, SrcTime.getTimeUsecWin freq ⟨q, o.queryPerformanceCounter⟩ =
          SrcTime.getTimeUsecWin freq o) ∧
      (SrcTime.getTimeUsecWin freq o).2 = freq) ∧
    (o.queryPerformanceFrequency = none → (SrcTime.getTimeUsecWin 0 o).2 = 0) ∧
    (freq ≠ 0 → ∀ os : List WinOracle, SrcTime.runWinCalls freq os = freq) := by
  refine ⟨fun h => ⟨?_, getTimeUsecWin_snd freq h o⟩, ?_, fun h os => ?_⟩
  · intro q
    cases hc : o.queryPerformanceCounter <;>
      simp [SrcTime.getTimeUsecWin, SrcTime.winEffectiveFreq, h, hc]
  · intro hq
    cases hc : o.queryPerformanceCounter <;>
      simp [SrcTime.getTimeUsecWin, SrcTime.winEffectiveFreq, hq, hc]
  · induction os with
    | nil => rfl
    | cons o' os' ih =>
      rw [SrcTime.runWinCalls, getTimeUsecWin_snd freq h o']
      exact ih

/-- Witness for C7 at a nonzero cache value `7` and concrete oracles. -/
theorem c7_freq_cache_witness :
    SrcTime.getTimeUsecWin 7 ⟨some 3, some 100⟩ = SrcTime.getTimeUsecWin 7 ⟨none, some 100⟩ ∧
    (SrcTime.getTimeUsecWin 7 ⟨none, some 100⟩).2 = 7 ∧
    (SrcTime.getTimeUsecWin 0 ⟨none, some 100⟩).2 = 0 ∧
    SrcTime.runWinCalls 7 [⟨none, some 100⟩, ⟨some 3, none⟩] = 7 :=
  ⟨((c7_freq_cache 7 ⟨none, some 100⟩).1 (by decide)).1 (some 3),
   ((c7_freq_cache 7 ⟨none, some 100⟩).1 (by decide)).2,
   (c7_freq_cache 0 ⟨none, some 100⟩).2.1 rfl,
   (c7_freq_cache 7 ⟨none, some 100⟩).2.2 (by decide) [⟨none, some 100⟩, ⟨some 3, none⟩]⟩

/-- C8: with no recognized platform macro defined, the preprocessor chain ends
in the `#error` diagnostic naming the missing timer capability, and
`getTimeUsec` has no runtime fallback: it never produces a value. -/
theorem c8_unsupported_platform_is_compile_error (c : PlatformConfig)
    (h : c.win32 = false ∧ c.psl1ght = false ∧ c.ps3 = false ∧ c.gekko = false ∧
      c.wiiu = false ∧ c.switch = false ∧ c.haveLibnx = false ∧ c.threeDS = false ∧
      c.posixMonotonicClock = false ∧ c.qnx = false ∧ c.android = false ∧
      c.mach = false ∧ c.djgpp = false ∧ c.emscripten = false ∧ c.ps2 = false ∧
      c.vita = false ∧ c.psp = false) :
    SrcTime.selectStrategy c = .error "Your platform does not have a timer function implemented in cpu_features_get_time_usec(). Cannot continue." ∧
    ∀ (o : PlatformOracle) (freq : Int) (v : Int × Int),
      SrcTime.getTimeUsec c o freq ≠ .ok v := by
  obtain ⟨h1, h2, h3, h4, h5, h6, h7, h8, h9, h10, h11, h12, h13, h14, h15, h16, h17⟩ := h
  have hsel : SrcTime.selectStrategy c = .error "Your platform does not have a timer function implemented in cpu_features_get_time_usec(). Cannot continue." := by
    simp [SrcTime.selectStrategy, h1, h2, h3, h4, h5, h6, h7, h8, h9, h10, h11, h12, h13,
      h14, h15, h16, h17]
  refine ⟨hsel, ?_⟩
  intro o freq v
  simp [SrcTime.getTimeUsec, hsel]

/-- Witness for C8 at the all-undefined build configuration. -/
theorem c8_unsupported_platform_is_compile_error_witness :
    SrcTime.selectStrategy
        ⟨false, false, false, false, false, false, false, false, false, false, false,
          false, false, false, false, false, false⟩ =
      .error "Your platform does not have a timer function implemented in cpu_features_get_time_usec(). Cannot continue." :=
  (c8_unsupported_platform_is_compile_error _
    ⟨rfl, rfl, rfl, rfl, rfl, rfl, rfl, rfl, rfl, rfl, rfl, rfl, rfl, rfl, rfl, rfl, rfl⟩).1

/-- C9: the two copies of `getTimeUsec` (in `src/time.c` and in the duplicate
`time.c`) are extensionally equal on every build configuration, oracle of raw
readings, and frequency-cache state. -/
theorem c9_copies_extensionally_equal (c : PlatformConfig) (o : PlatformOracle)
    (freq : Int) :
    SrcTime.getTimeUsec c o freq = RootTime.getTimeUsec c o freq := rfl

/-- C10: provided a successful frequency query reports a nonzero frequency (as
the Windows API guarantees), whenever the guard does not return zero early the
frequency used by the conversion's divisions is nonzero, and the returned value
is exactly the conversion at that nonzero frequency. -/
theorem c10_division_only_at_nonzero_freq (freq : Int) (o : WinOracle)
    (hq : ∀ f, o.queryPerformanceFrequency = some f → f ≠ 0)
    (hguard : ¬ (freq = 0 ∧ o.queryPerformanceFrequency = none)) :
    SrcTime.winEffectiveFreq freq o ≠ 0 ∧
    ∀ count, o.queryPerformanceCounter = some count →
      (SrcTime.getTimeUsecWin freq o).1 =
        SrcTime.winConvert count (SrcTime.winEffectiveFreq freq o) := by
  have hne : SrcTime.winEffectiveFreq freq o ≠ 0 := by
    unfold SrcTime.winEffectiveFreq
    by_cases h0 : freq = 0
    · rw [if_pos h0]
      cases hqq : o.queryPerformanceFrequency with
      | none => exact absurd ⟨h0, hqq⟩ hguard
      | some f => simpa using hq f hqq
    · rw [if_neg h0]
      exact h0
  refine ⟨hne, ?_⟩
  intro count hc
  simp [SrcTime.getTimeUsecWin, hguard, hc]

/-- Witness for C10 at an unset cache and a successful frequency query. -/
theorem c10_division_only_at_nonzero_freq_witness :
    SrcTime.winEffectiveFreq 0 ⟨some 19200000, some 100⟩ ≠ 0 ∧
    (SrcTime.getTimeUsecWin 0 ⟨some 19200000, some 100⟩).1 =
      SrcTime.winConvert 100 (SrcTime.winEffectiveFreq 0 ⟨some 19200000, some 100⟩) :=
  ⟨(c10_division_only_at_nonzero_freq 0 ⟨some 19200000, some 100⟩
      (fun f hf => by cases Option.some.inj hf; decide) (by decide)).1,
   (c10_division_only_at_nonzero_freq 0 ⟨some 19200000, some 100⟩
      (fun f hf => by cases Option.some.inj hf; decide) (by decide)).2 100 rfl⟩
